import Mathlib

/-!
# Verification of the ESG-vs-annual-return analysis pipeline

A shallow embedding of the notebook `term_project.ipynb`: a linear pipeline
that looks up two dated price rows, computes per-entity two-point returns,
inner-joins with an ESG table on the ticker symbol, coerces result columns
to numeric (invalid values become NaN), and runs descriptive statistics and
a Pearson correlation test with a fixed 0.05 significance threshold.

The notebook's numeric values are IEEE double-precision floats.  The inputs
and operations relevant to the verified claims (exact CSV prices, division
by zero, NaN propagation, NaN-aware comparison) are modelled exactly by an
extended-rational type `FVal` with `nan`, `inf` and `ninf` constructors and
IEEE special-value semantics; no claim here depends on rounding.
-/

/-- An IEEE-style extended numeric value: finite values are exact rationals,
plus positive infinity, negative infinity and NaN. -/
inductive FVal where
  | nan : FVal
  | inf : FVal
  | ninf : FVal
  | fin (q : ℚ) : FVal
deriving DecidableEq, Repr

namespace FVal

/-- IEEE negation. -/
def fneg : FVal → FVal
  | nan => nan
  | inf => ninf
  | ninf => inf
  | fin q => fin (-q)

/-- IEEE addition: NaN absorbs, `inf + ninf = nan`. -/
def fadd : FVal → FVal → FVal
  | nan, _ => nan
  | _, nan => nan
  | inf, ninf => nan
  | ninf, inf => nan
  | inf, _ => inf
  | _, inf => inf
  | ninf, _ => ninf
  | _, ninf => ninf
  | fin a, fin b => fin (a + b)

/-- IEEE subtraction. -/
def fsub (a b : FVal) : FVal := fadd a (fneg b)

/-- IEEE multiplication: NaN absorbs, `inf * 0 = nan`, signs multiply. -/
def fmul : FVal → FVal → FVal
  | nan, _ => nan
  | _, nan => nan
  | inf, inf => inf
  | inf, ninf => ninf
  | ninf, inf => ninf
  | ninf, ninf => inf
  | inf, fin b => if 0 < b then inf else if b < 0 then ninf else nan
  | fin a, inf => if 0 < a then inf else if a < 0 then ninf else nan
  | ninf, fin b => if 0 < b then ninf else if b < 0 then inf else nan
  | fin a, ninf => if 0 < a then ninf else if a < 0 then inf else nan
  | fin a, fin b => fin (a * b)

/-- IEEE division: NaN absorbs, `inf/inf = nan`, finite/0 gives a signed
infinity (or NaN for 0/0), finite/inf gives 0. -/
def fdiv : FVal → FVal → FVal
  | nan, _ => nan
  | _, nan => nan
  | inf, inf => nan
  | inf, ninf => nan
  | ninf, inf => nan
  | ninf, ninf => nan
  | inf, fin b => if b < 0 then ninf else inf
  | ninf, fin b => if b < 0 then inf else ninf
  | fin _, inf => fin 0
  | fin _, ninf => fin 0
  | fin a, fin b =>
      if b = 0 then (if 0 < a then inf else if a < 0 then ninf else nan)
      else fin (a / b)

/-- IEEE comparison `a <= b`: any comparison with NaN is false. -/
def fle : FVal → FVal → Bool
  | nan, _ => false
  | _, nan => false
  | ninf, _ => true
  | _, ninf => false
  | _, inf => true
  | inf, _ => false
  | fin a, fin b => decide (a ≤ b)

/-- NaN test: this is what `dropna` / missing-value detection sees. -/
def isNan : FVal → Bool
  | nan => true
  | _ => false

/-- Sum of a list of values, as numpy/pandas summation: NaN poisons. -/
def fsum (xs : List FVal) : FVal := xs.foldr fadd (fin 0)

end FVal

/-- A raw pandas cell: either an (extended) numeric value or a string, as in
a column of `object` dtype read by `read_csv` without coercion. -/
inductive Value where
  | num (f : FVal) : Value
  | str (s : String) : Value
deriving DecidableEq, Repr

/-- Parse a single decimal digit. -/
def digitVal (c : Char) : Option ℕ :=
  if c.isDigit then some (c.toNat - '0'.toNat) else none

/-- Parse a nonempty run of decimal digits into a natural number. -/
def digitsVal : List Char → Option ℕ
  | [] => none
  | [c] => digitVal c
  | c :: cs =>
      match digitsVal cs, digitVal c with
      | some rest, some d => some (d * 10 ^ cs.length + rest)
      | _, _ => none

/-- Decimal-literal parser modelling the numeric-string parsing of
`pd.to_numeric`: optional sign, integer digits, optional fractional digits.
Anything else (for example `"N/A"`) fails to parse. -/
def parseRat (s : String) : Option ℚ :=
  let cs := s.data
  let signed : ℚ × List Char :=
    match cs with
    | '-' :: t => (-1, t)
    | '+' :: t => (1, t)
    | _ => (1, cs)
  let ip := signed.2.takeWhile Char.isDigit
  let rest := signed.2.dropWhile Char.isDigit
  match rest with
  | [] => (digitsVal ip).map (fun n => signed.1 * (n : ℚ))
  | '.' :: fp =>
      match digitsVal ip, digitsVal fp with
      | some n, some f =>
          if fp.all Char.isDigit then
            some (signed.1 * ((n : ℚ) + (f : ℚ) / (10 : ℚ) ^ fp.length))
          else none
      | _, _ => none
  | _ => none

/-- `pd.to_numeric(col, errors="coerce")` on one cell: numeric values pass
through unchanged, strings are parsed, and a parse failure becomes NaN
(pandas' missing marker) instead of raising. -/
def to_numeric (v : Value) : FVal :=
  match v with
  | Value.num f => f
  | Value.str s =>
      match parseRat s with
      | some q => FVal.fin q
      | none => FVal.nan

/-! ## Data model of the pipeline tables -/

/-- One row of the ESG table (`df_esg`): ticker symbol and the raw
`totalEsg` cell, which may be a non-numeric string. -/
structure EsgRow where
  symbol : String
  totalEsg : Value
deriving DecidableEq, Repr

/-- One row of `df_returns`: symbol, the two dated prices and the computed
annual return. -/
structure RetRow where
  symbol : String
  startPrice : FVal
  endPrice : FVal
  annualReturn : FVal
deriving DecidableEq, Repr

/-- One row of `df_final_filtered` before numeric coercion: the merge of an
ESG row and a return row, the derived `PriceDifference`, projected onto the
six retained columns. -/
structure MergedRow where
  symbol : String
  startPrice : FVal
  endPrice : FVal
  annualReturn : FVal
  priceDifference : FVal
  totalEsg : Value
deriving DecidableEq, Repr

/-- One row of `df_final_filtered` after the three `pd.to_numeric` calls:
`totalEsg` is now numeric-or-NaN; `Symbol`, `StartPrice`, `EndPrice` are
untouched by the coercion step. -/
structure CleanRow where
  symbol : String
  startPrice : FVal
  endPrice : FVal
  annualReturn : FVal
  priceDifference : FVal
  totalEsg : FVal
deriving DecidableEq, Repr

/-! ## Stage 1: dated row lookup (`df_prices[df_prices["Date"] == d].iloc[0]`) -/

/-- The price table: one row per date, holding the date key and the list of
per-symbol prices (the symbol order is the table's column order). -/
abbrev PriceTable := List (String × List FVal)

/-- `df_prices[df_prices["Date"] == d].iloc[0]`: filter the rows whose date
equals `d` exactly and take the first; an absent date leaves an empty
filtered frame, where `.iloc[0]` raises — modelled by `none` (the spec's
`MissingDateError`).  There is no nearest-date fallback. -/
def row_at_date (df : PriceTable) (d : String) : Option (List FVal) :=
  ((df.filter (fun r => r.1 == d)).head?).map (fun r => r.2)

/-! ## Stage 2: return computation (`(end_prices[1:] / start_prices[1:]) - 1`) -/

/-- The elementwise return formula applied to one entity's start and end
price: `endPrice / startPrice - 1`, exactly as in the source (no `*100`
scaling, no annualization). -/
def annual_return (startPrice endPrice : FVal) : FVal :=
  FVal.fsub (FVal.fdiv endPrice startPrice) (FVal.fin 1)

/-- Construction of `df_returns` from the symbol column names and the two
selected price rows: one row per entity, aligned positionally. -/
def build_returns : List String → List FVal → List FVal → List RetRow
  | sym :: syms, s :: ss, e :: es =>
      { symbol := sym, startPrice := s, endPrice := e,
        annualReturn := annual_return s e } :: build_returns syms ss es
  | _, _, _ => []

/-! ## Stage 3: merge, derived column, projection, numeric coercion -/

/-- `df_esg.merge(df_returns, on="Symbol")`, then
`df_final["PriceDifference"] = EndPrice - StartPrice`, then the projection
onto the six retained columns: a pandas inner join — for each left row, in
order, every right row with an equal symbol produces one output row;
entities present on only one side are silently dropped. -/
def merge_on_symbol (esg : List EsgRow) (rets : List RetRow) : List MergedRow :=
  esg.flatMap (fun e =>
    (rets.filter (fun r => r.symbol == e.symbol)).map (fun r =>
      { symbol := e.symbol, startPrice := r.startPrice, endPrice := r.endPrice,
        annualReturn := r.annualReturn,
        priceDifference := FVal.fsub r.endPrice r.startPrice,
        totalEsg := e.totalEsg }))

/-- The three `pd.to_numeric(..., errors="coerce")` assignments on one row:
`totalEsg`, `AnnualReturn` and `PriceDifference` are coerced (the latter two
are already numeric, so coercion is the identity on them); `Symbol`,
`StartPrice` and `EndPrice` are not touched. -/
def clean_row (m : MergedRow) : CleanRow :=
  { symbol := m.symbol, startPrice := m.startPrice, endPrice := m.endPrice,
    annualReturn := to_numeric (Value.num m.annualReturn),
    priceDifference := to_numeric (Value.num m.priceDifference),
    totalEsg := to_numeric m.totalEsg }

/-- The cleaning step over the whole merged table. -/
def clean_table (rows : List MergedRow) : List CleanRow := rows.map clean_row

/-- The whole data-preparation cell: look up the two dated rows (failing
with `MissingDateError`, i.e. `none`, if either is absent), build
`df_returns`, inner-join with the ESG table, derive `PriceDifference`,
project and coerce.  `symbols` is the price table's column-name list. -/
def run_pipeline (esg : List EsgRow) (prices : PriceTable)
    (symbols : List String) (startDate endDate : String) :
    Option (List CleanRow) :=
  match row_at_date prices startDate, row_at_date prices endDate with
  | some ss, some es =>
      some (clean_table (merge_on_symbol esg (build_returns symbols ss es)))
  | _, _ => none

/-! ## Stage 4: analyzer — descriptive statistics (`describe_return`)

`describe_return` drops NaN from the `AnnualReturn` column and computes the
statistics on the remaining values.  `Std Dev` and `Skewness` in the source
are `sqrt(Variance)` and `m3 / m2^(3/2)`: both are real square roots of the
rational quantities tracked here (variance and the central moments), so the
embedding carries the variance and the moments instead of the roots. -/

/-- `col.dropna()`: remove the NaN (missing) entries; infinities are not
missing and are kept. -/
def dropna (xs : List FVal) : List FVal := xs.filter (fun x => !x.isNan)

/-- Mean, as pandas: sum divided by length (empty list gives `0/0 = nan`). -/
def fmean (xs : List FVal) : FVal := FVal.fdiv (FVal.fsum xs) (FVal.fin xs.length)

/-- Iterated IEEE product, for the standardized-moment powers. -/
def fpow (x : FVal) : ℕ → FVal
  | 0 => FVal.fin 1
  | n + 1 => FVal.fmul x (fpow x n)

/-- Insert into a `fle`-sorted list. -/
def finsert (x : FVal) : List FVal → List FVal
  | [] => [x]
  | y :: ys => if FVal.fle x y then x :: y :: ys else y :: finsert x ys

/-- Insertion sort by the IEEE order (the inputs here are NaN-free). -/
def fsort (xs : List FVal) : List FVal := xs.foldr finsert []

/-- `data.min()` on a NaN-free series (empty gives NaN, as pandas). -/
def fmin : List FVal → FVal
  | [] => FVal.nan
  | x :: xs => xs.foldl (fun a b => if FVal.fle b a then b else a) x

/-- `data.max()` on a NaN-free series (empty gives NaN, as pandas). -/
def fmax : List FVal → FVal
  | [] => FVal.nan
  | x :: xs => xs.foldl (fun a b => if FVal.fle a b then b else a) x

/-- `data.median()`: middle of the sorted values, or the mean of the two
middle values for an even count. -/
def fmedian (xs : List FVal) : FVal :=
  let s := fsort xs
  let n := s.length
  if n = 0 then FVal.nan
  else if n % 2 = 1 then s.getD (n / 2) FVal.nan
  else FVal.fdiv (FVal.fadd (s.getD (n / 2 - 1) FVal.nan) (s.getD (n / 2) FVal.nan))
        (FVal.fin 2)

/-- `data.var()`: pandas sample variance, sum of squared deviations divided
by `n - ddof` with the default `ddof = 1`.  (`data.std()` in the source is
its square root.) -/
def fvar (xs : List FVal) : FVal :=
  FVal.fdiv
    (FVal.fsum (xs.map (fun x =>
      FVal.fmul (FVal.fsub x (fmean xs)) (FVal.fsub x (fmean xs)))))
    (FVal.fin ((xs.length - 1 : ℕ) : ℚ))

/-- The k-th central moment `mean((x - mean)^k)`, the building block of
scipy's `skew` and `kurtosis` with the default `bias=True`. -/
def fmoment (xs : List FVal) (k : ℕ) : FVal :=
  fmean (xs.map (fun x => fpow (FVal.fsub x (fmean xs)) k))

/-- `stats.kurtosis(data)` with scipy defaults `fisher=True, bias=True`:
`m4 / m2^2 - 3`, the excess-kurtosis convention (normal → 0). -/
def fkurtosis (xs : List FVal) : FVal :=
  FVal.fsub (FVal.fdiv (fmoment xs 4) (fpow (fmoment xs 2) 2)) (FVal.fin 3)

/-- The `describe_return` value object (`Std Dev`/`Skewness` are the real
square roots determined by `variance` and the moments; see above). -/
structure SummaryStats where
  label : String
  count : ℕ
  min : FVal
  max : FVal
  range : FVal
  mean : FVal
  median : FVal
  variance : FVal
  kurtosis : FVal
deriving DecidableEq, Repr

/-- `describe_return(group, label)`: drop NaN from the target column, then
compute every statistic on that non-missing subset. -/
def describe_return (col : List FVal) (label : String) : SummaryStats :=
  let data := dropna col
  { label := label
    count := data.length
    min := fmin data
    max := fmax data
    range := FVal.fsub (fmax data) (fmin data)
    mean := fmean data
    median := fmedian data
    variance := fvar data
    kurtosis := fkurtosis data }

/-! ## Stage 4: analyzer — Pearson correlation and decision rule

`stats.pearsonr` is called on the two full columns
`df_final_filtered['totalEsg']` and `df_final_filtered['AnnualReturn']`
with scipy's default NaN handling (propagation): no pair is excluded.
scipy computes `r = Sxy / (sqrt(Sxx) * sqrt(Syy))` from the centered sums
and derives the two-tailed p-value from `r`; `r` and the p-value involve a
real square root and the incomplete beta function, so the embedding tracks
the squared statistic `r^2 = Sxy^2 / (Sxx * Syy)`, which is finite exactly
when `r` (and hence the p-value) is, and NaN exactly when they are. -/

/-- The two column vectors the source passes to `stats.pearsonr`, in row
order, with no filtering of missing entries. -/
def pearson_inputs (rows : List CleanRow) : List FVal × List FVal :=
  (rows.map (fun m => m.totalEsg), rows.map (fun m => m.annualReturn))

/-- Centered cross sum `Sxy = sum((x - mean x) * (y - mean y))`. -/
def centered_sum (xs ys : List FVal) : FVal :=
  FVal.fsum (List.zipWith
    (fun x y => FVal.fmul (FVal.fsub x (fmean xs)) (FVal.fsub y (fmean ys)))
    xs ys)

/-- The squared Pearson statistic `Sxy^2 / (Sxx * Syy)` under IEEE
arithmetic: a NaN anywhere in either column propagates into it, exactly as
it propagates into scipy's `r` and p-value. -/
def pearson_r_sq (xs ys : List FVal) : FVal :=
  FVal.fdiv (FVal.fmul (centered_sum xs ys) (centered_sum xs ys))
    (FVal.fmul (centered_sum xs xs) (centered_sum ys ys))

/-- Modelled from the spec: the paired values "with either missing → pair
excluded" that the spec says the correlation is computed over.  This is the
comparison definition for the exclusion claim; the source itself performs
no such filtering. -/
def spec_pairs (rows : List CleanRow) : List (FVal × FVal) :=
  (rows.map (fun m => (m.totalEsg, m.annualReturn))).filter
    (fun p => !p.1.isNan && !p.2.isNan)

/-- The squared Pearson statistic over the spec's filtered pairs. -/
def spec_pearson_r_sq (rows : List CleanRow) : FVal :=
  pearson_r_sq ((spec_pairs rows).map Prod.fst) ((spec_pairs rows).map Prod.snd)

/-- The fixed significance threshold of the decision rule. -/
def alpha : ℚ := 1 / 20

/-- The printed verdict when the null hypothesis is rejected. -/
def reject_msg : String :=
  "Reject H0: There is a relationship between ESG scores and stock prices (annual return)."

/-- The printed verdict otherwise (the source's string has a leading space). -/
def fail_msg : String :=
  " Fail to Reject H0: There is no relationship between ESG scores and stock prices (annual return)."

/-- `if p_value <= 0.05: ... else: ...` — the reject-null verdict exactly
when `p <= 0.05` under the IEEE comparison (false for a NaN p-value). -/
def verdict (p : FVal) : String :=
  if FVal.fle p (FVal.fin alpha) then reject_msg else fail_msg

/-! ## Spec-side comparison definitions and concrete test tables -/

/-- Mean of a list of rationals (spec-side formula). -/
def qmean (qs : List ℚ) : ℚ := qs.sum / qs.length

/-- The k-th population central moment `sum((x - mean)^k) / n`, written
from the spec's description of the moment-based statistics. -/
def pop_moment (qs : List ℚ) (k : ℕ) : ℚ :=
  (qs.map (fun x => (x - qmean qs) ^ k)).sum / qs.length

/-- Population variance (divide by `N`), the convention the spec contrasts
with the sample convention the code is claimed to use. -/
def pop_variance (qs : List ℚ) : ℚ := pop_moment qs 2

/-- Raw (non-excess) kurtosis `m4 / m2^2`, the "normal = 3" convention the
spec contrasts with the excess convention the code is claimed to use. -/
def raw_kurtosis (qs : List ℚ) : ℚ := pop_moment qs 4 / pop_moment qs 2 ^ 2

/-- A one-company ESG table used for the zero-start-price scenario. -/
def esg_table_test : List EsgRow := [{ symbol := "TEST", totalEsg := Value.num (FVal.fin 30) }]

/-- A one-company price table with a start price of exactly zero and a
parameterized end price at the two analysis dates. -/
def price_table_zero_start (e : ℚ) : PriceTable :=
  [("2023-01-03", [FVal.fin 0]), ("2024-08-30", [FVal.fin e])]

/-- A concrete cleaned table with three complete (esg, return) pairs and a
fourth row whose `totalEsg` is missing, for the pair-exclusion question. -/
def corr_rows_with_missing : List CleanRow :=
  [{ symbol := "A", startPrice := FVal.fin 1, endPrice := FVal.fin 2,
     annualReturn := FVal.fin 1, priceDifference := FVal.fin 1, totalEsg := FVal.fin 10 },
   { symbol := "B", startPrice := FVal.fin 1, endPrice := FVal.fin 2,
     annualReturn := FVal.fin 3, priceDifference := FVal.fin 1, totalEsg := FVal.fin 20 },
   { symbol := "C", startPrice := FVal.fin 1, endPrice := FVal.fin 2,
     annualReturn := FVal.fin 2, priceDifference := FVal.fin 1, totalEsg := FVal.fin 30 },
   { symbol := "D", startPrice := FVal.fin 1, endPrice := FVal.fin 2,
     annualReturn := FVal.fin 5, priceDifference := FVal.fin 1, totalEsg := FVal.nan }]

/-! ## Helper lemmas -/

namespace FVal

theorem fadd_nan_left (x : FVal) : fadd nan x = nan := by cases x <;> rfl

theorem fadd_nan_right (x : FVal) : fadd x nan = nan := by cases x <;> rfl

theorem fneg_nan : fneg nan = nan := rfl

theorem fsub_nan_right (x : FVal) : fsub x nan = nan := by cases x <;> rfl

theorem fmul_nan_left (x : FVal) : fmul nan x = nan := by cases x <;> rfl

theorem fmul_nan_right (x : FVal) : fmul x nan = nan := by cases x <;> rfl

theorem fdiv_nan_left (x : FVal) : fdiv nan x = nan := by cases x <;> rfl

theorem fadd_fin_fin (a b : ℚ) : fadd (fin a) (fin b) = fin (a + b) := rfl

theorem fsub_fin_fin (a b : ℚ) : fsub (fin a) (fin b) = fin (a - b) := by
  simp [fsub, fadd, fneg, sub_eq_add_neg]

theorem fmul_fin_fin (a b : ℚ) : fmul (fin a) (fin b) = fin (a * b) := rfl

theorem fdiv_fin_fin (a : ℚ) {b : ℚ} (hb : b ≠ 0) :
    fdiv (fin a) (fin b) = fin (a / b) := by
  simp [fdiv, hb]

theorem fpow_fin (a : ℚ) : ∀ k : ℕ, fpow (fin a) k = fin (a ^ k)
  | 0 => rfl
  | k + 1 => by
    simp [fpow, fpow_fin a k, fmul_fin_fin, pow_succ]
    ring

theorem fsum_map_fin (qs : List ℚ) : fsum (qs.map fin) = fin qs.sum := by
  induction qs with
  | nil => rfl
  | cons q t ih => simp [fsum, List.foldr] at ih ⊢; simp [ih, fadd_fin_fin]

theorem fsum_eq_nan_of_mem {xs : List FVal} (h : nan ∈ xs) : fsum xs = nan := by
  induction xs with
  | nil => cases h
  | cons x t ih =>
    rcases List.mem_cons.mp h with hx | ht
    · subst hx; exact fadd_nan_left _
    · show fadd x (fsum t) = nan
      rw [ih ht, fadd_nan_right]

end FVal

theorem fmean_map_fin {qs : List ℚ} (h : qs ≠ []) :
    fmean (qs.map FVal.fin) = FVal.fin (qmean qs) := by
  have hl : qs.length ≠ 0 := by simpa [List.length_eq_zero] using h
  have hn : ((qs.length : ℚ)) ≠ 0 := by exact_mod_cast hl
  simp [fmean, FVal.fsum_map_fin, qmean]
  rw [FVal.fdiv_fin_fin _ hn]

theorem fmean_eq_nan_of_mem {xs : List FVal} (h : FVal.nan ∈ xs) :
    fmean xs = FVal.nan := by
  rw [fmean, FVal.fsum_eq_nan_of_mem h, FVal.fdiv_nan_left]

theorem fsum_cons (x : FVal) (t : List FVal) :
    FVal.fsum (x :: t) = FVal.fadd x (FVal.fsum t) := rfl

theorem fmoment_map_fin {qs : List ℚ} (h : qs ≠ []) (k : ℕ) :
    fmoment (qs.map FVal.fin) k = FVal.fin (pop_moment qs k) := by
  have hmap : qs.map (fun q => (q - qmean qs) ^ k) ≠ [] := by simpa using h
  unfold fmoment
  rw [fmean_map_fin h, List.map_map]
  have hfun : (fun x => fpow (FVal.fsub x (FVal.fin (qmean qs))) k) ∘ FVal.fin
      = FVal.fin ∘ (fun q => (q - qmean qs) ^ k) := by
    funext q
    simp [Function.comp, FVal.fsub_fin_fin, FVal.fpow_fin]
  rw [hfun, ← List.map_map, fmean_map_fin hmap]
  simp [qmean, pop_moment]

theorem fvar_map_fin {qs : List ℚ} (h2 : 2 ≤ qs.length) :
    fvar (qs.map FVal.fin) =
      FVal.fin ((qs.map (fun q => (q - qmean qs) ^ 2)).sum / ((qs.length : ℚ) - 1)) := by
  have h : qs ≠ [] := by
    intro e
    subst e
    simp at h2
  have h1 : 1 ≤ qs.length := le_trans (by norm_num) h2
  have hl1 : ((qs.length - 1 : ℕ) : ℚ) = (qs.length : ℚ) - 1 := by
    push_cast [Nat.cast_sub h1]
    ring
  have hd : ((qs.length : ℚ) - 1) ≠ 0 := by
    have hq : (2 : ℚ) ≤ (qs.length : ℚ) := by exact_mod_cast h2
    linarith
  unfold fvar
  rw [fmean_map_fin h, List.map_map]
  have hfun : (fun x => FVal.fmul (FVal.fsub x (FVal.fin (qmean qs)))
        (FVal.fsub x (FVal.fin (qmean qs)))) ∘ FVal.fin
      = FVal.fin ∘ (fun q => (q - qmean qs) ^ 2) := by
    funext q
    simp only [Function.comp_apply, FVal.fsub_fin_fin, FVal.fmul_fin_fin]
    exact congrArg FVal.fin (by ring)
  rw [hfun, ← List.map_map, FVal.fsum_map_fin, List.length_map, hl1,
    FVal.fdiv_fin_fin _ hd]

theorem centered_sum_nan_left {xs ys : List FVal} (hx : FVal.nan ∈ xs)
    (hy : ys ≠ []) : centered_sum xs ys = FVal.nan := by
  obtain ⟨a, xs2, rfl⟩ : ∃ a t, xs = a :: t := by
    cases xs with
    | nil => cases hx
    | cons a t => exact ⟨a, t, rfl⟩
  obtain ⟨b, ys2, rfl⟩ : ∃ b t, ys = b :: t := by
    cases ys with
    | nil => simp at hy
    | cons b t => exact ⟨b, t, rfl⟩
  rw [centered_sum, List.zipWith_cons_cons, fsum_cons, fmean_eq_nan_of_mem hx,
    FVal.fsub_nan_right, FVal.fmul_nan_left, FVal.fadd_nan_left]

theorem centered_sum_nan_right {xs ys : List FVal} (hx : xs ≠ [])
    (hy : FVal.nan ∈ ys) : centered_sum xs ys = FVal.nan := by
  obtain ⟨a, xs2, rfl⟩ : ∃ a t, xs = a :: t := by
    cases xs with
    | nil => simp at hx
    | cons a t => exact ⟨a, t, rfl⟩
  obtain ⟨b, ys2, rfl⟩ : ∃ b t, ys = b :: t := by
    cases ys with
    | nil => cases hy
    | cons b t => exact ⟨b, t, rfl⟩
  rw [centered_sum, List.zipWith_cons_cons, fsum_cons, fmean_eq_nan_of_mem hy,
    FVal.fsub_nan_right, FVal.fmul_nan_right, FVal.fadd_nan_left]

theorem pearson_r_sq_nan_left {xs ys : List FVal} (hx : FVal.nan ∈ xs)
    (hy : ys ≠ []) : pearson_r_sq xs ys = FVal.nan := by
  rw [pearson_r_sq, centered_sum_nan_left hx hy, FVal.fmul_nan_left,
    FVal.fdiv_nan_left]

theorem pearson_r_sq_nan_right {xs ys : List FVal} (hx : xs ≠ [])
    (hy : FVal.nan ∈ ys) : pearson_r_sq xs ys = FVal.nan := by
  rw [pearson_r_sq, centered_sum_nan_right hx hy, FVal.fmul_nan_left,
    FVal.fdiv_nan_left]

theorem build_returns_annualReturn (syms : List String) :
    ∀ (ss es : List FVal) (r : RetRow), r ∈ build_returns syms ss es →
      r.annualReturn = annual_return r.startPrice r.endPrice := by
  induction syms with
  | nil =>
    intro ss es r hr
    cases ss <;> cases es <;> simp [build_returns] at hr
  | cons a t ih =>
    intro ss es r hr
    cases ss with
    | nil => cases es <;> simp [build_returns] at hr
    | cons s st =>
      cases es with
      | nil => simp [build_returns] at hr
      | cons e et =>
        have hr2 : r = ⟨a, s, e, annual_return s e⟩ ∨ r ∈ build_returns t st et := by
          simpa [build_returns] using hr
        rcases hr2 with h | h
        · subst h; rfl
        · exact ih st et r h

theorem row_at_date_eq_none {df : PriceTable} {d : String}
    (h : ∀ r ∈ df, r.1 ≠ d) : row_at_date df d = none := by
  have hf : df.filter (fun r => r.1 == d) = [] := by
    rw [List.filter_eq_nil_iff]
    intro r hr
    simp [h r hr]
  simp [row_at_date, hf]

theorem row_at_date_eq_some {df : PriceTable} {d : String} {row : List FVal}
    (h : row_at_date df d = some row) : ∃ r ∈ df, r.1 = d ∧ r.2 = row := by
  unfold row_at_date at h
  cases hf : df.filter (fun r => r.1 == d) with
  | nil => rw [hf] at h; simp at h
  | cons r0 t =>
    rw [hf] at h
    simp at h
    have hr0 : r0 ∈ df.filter (fun r => r.1 == d) := by
      rw [hf]; exact List.mem_cons_self r0 t
    have hm := List.mem_filter.mp hr0
    exact ⟨r0, hm.1, by simpa using hm.2, h⟩

/-- C1: the Return Calculator computes `annualReturn` as exactly
`(endPrice / startPrice) - 1` for every entity — the literal two-point
change, with no `*100` scaling and no annualization — and on the spec's
round-trip examples `(160/150) - 1` is within `1e-4` of `0.0667` and
`(810/800) - 1` is within `1e-4` of `0.0125`. -/
theorem annual_return_formula :
    (∀ s e : ℚ, s ≠ 0 →
      annual_return (FVal.fin s) (FVal.fin e) = FVal.fin (e / s - 1))
    ∧ (∀ (syms : List String) (ss es : List FVal) (r : RetRow),
        r ∈ build_returns syms ss es →
        r.annualReturn = annual_return r.startPrice r.endPrice)
    ∧ annual_return (FVal.fin 150) (FVal.fin 160) = FVal.fin (160 / 150 - 1)
    ∧ |((160 : ℚ) / 150 - 1) - 667 / 10000| ≤ 1 / 10000
    ∧ annual_return (FVal.fin 800) (FVal.fin 810) = FVal.fin (810 / 800 - 1)
    ∧ |((810 : ℚ) / 800 - 1) - 125 / 10000| ≤ 1 / 10000 := by
  have hform : ∀ s e : ℚ, s ≠ 0 →
      annual_return (FVal.fin s) (FVal.fin e) = FVal.fin (e / s - 1) := by
    intro s e hs
    rw [annual_return, FVal.fdiv_fin_fin _ hs, FVal.fsub_fin_fin]
  refine ⟨hform, build_returns_annualReturn, ?_, ?_, ?_, ?_⟩
  · rw [hform 150 160 (by norm_num)]
  · rw [abs_le]; constructor <;> norm_num
  · rw [hform 800 810 (by norm_num)]
  · rw [abs_le]; constructor <;> norm_num

/-- Witness for C1 at the spec's concrete inputs. -/
theorem annual_return_formula_witness :
    (150 : ℚ) ≠ 0
    ∧ annual_return (FVal.fin 150) (FVal.fin 160) = FVal.fin (160 / 150 - 1)
    ∧ (⟨"A", FVal.fin 150, FVal.fin 160, annual_return (FVal.fin 150) (FVal.fin 160)⟩ : RetRow)
        ∈ build_returns ["A"] [FVal.fin 150] [FVal.fin 160]
    ∧ (⟨"A", FVal.fin 150, FVal.fin 160, annual_return (FVal.fin 150) (FVal.fin 160)⟩ : RetRow).annualReturn
        = annual_return (FVal.fin 150) (FVal.fin 160) :=
  ⟨by norm_num, annual_return_formula.1 150 160 (by norm_num),
    by simp [build_returns],
    annual_return_formula.2.1 ["A"] [FVal.fin 150] [FVal.fin 160] _
      (by simp [build_returns])⟩

/-- C3: if either target date is absent from the price table the pipeline
fails (the `MissingDateError`, modelled as `none`), and a successful run
implies both dates are present as exact-match rows — there is no
nearest-date or other fallback. -/
theorem missing_date_error :
    ∀ (esg : List EsgRow) (prices : PriceTable) (syms : List String)
      (d1 d2 : String),
      (((∀ r ∈ prices, r.1 ≠ d1) ∨ (∀ r ∈ prices, r.1 ≠ d2)) →
        run_pipeline esg prices syms d1 d2 = none)
      ∧ (∀ out, run_pipeline esg prices syms d1 d2 = some out →
          (∃ r ∈ prices, r.1 = d1) ∧ (∃ r ∈ prices, r.1 = d2)) := by
  intro esg prices syms d1 d2
  constructor
  · rintro (h | h)
    · rw [run_pipeline, row_at_date_eq_none h]
    · rw [run_pipeline, row_at_date_eq_none h]
      cases row_at_date prices d1 <;> rfl
  · intro out h
    rw [run_pipeline] at h
    cases h1 : row_at_date prices d1 with
    | none => rw [h1] at h; simp at h
    | some ss =>
      cases h2 : row_at_date prices d2 with
      | none => rw [h1, h2] at h; simp at h
      | some es =>
        obtain ⟨r1, hr1, hd1, _⟩ := row_at_date_eq_some h1
        obtain ⟨r2, hr2, hd2, _⟩ := row_at_date_eq_some h2
        exact ⟨⟨r1, hr1, hd1⟩, ⟨r2, hr2, hd2⟩⟩

/-- Witness for C3: a table holding only the date `"a"`, queried for the
absent date `"b"`, makes the pipeline fail with `none`. -/
theorem missing_date_error_witness :
    (∀ r ∈ ([("a", ([] : List FVal))] : PriceTable), r.1 ≠ "b")
    ∧ run_pipeline [] [("a", [])] [] "b" "a" = none :=
  ⟨by decide, (missing_date_error [] [("a", [])] [] "b" "a").1 (Or.inl (by decide))⟩

/-- C4: the numeric coercion of the Merger/Cleaner never raises — an
unparsable cell (such as the string `"N/A"` in `totalEsg`) becomes the NaN
missing marker, and on the already-numeric `AnnualReturn` and
`PriceDifference` columns the coercion is the identity (total, no error). -/
theorem to_numeric_coerce :
    (∀ s : String, parseRat s = none → to_numeric (Value.str s) = FVal.nan)
    ∧ parseRat "N/A" = none
    ∧ (∀ m : MergedRow, m.totalEsg = Value.str "N/A" →
        (clean_row m).totalEsg = FVal.nan)
    ∧ (∀ m : MergedRow, (clean_row m).annualReturn = m.annualReturn
        ∧ (clean_row m).priceDifference = m.priceDifference) := by
  refine ⟨?_, by decide, ?_, fun m => ⟨rfl, rfl⟩⟩
  · intro s hs
    simp [to_numeric, hs]
  · intro m hm
    have h : (clean_row m).totalEsg = to_numeric m.totalEsg := rfl
    rw [h, hm]
    decide

/-- Witness for C4 at the spec's `"N/A"` example. -/
theorem to_numeric_coerce_witness :
    parseRat "N/A" = none
    ∧ to_numeric (Value.str "N/A") = FVal.nan
    ∧ (clean_row ⟨"X", FVal.fin 1, FVal.fin 2, FVal.fin 1, FVal.fin 1, Value.str "N/A"⟩).totalEsg = FVal.nan :=
  ⟨by decide, to_numeric_coerce.1 "N/A" (by decide), to_numeric_coerce.2.2.1 _ rfl⟩

/-- C5: the merge is an inner join on the symbol — a symbol appears in the
merged table exactly when it appears in both the ESG table and the return
table; one-sided entities are dropped with no error. -/
theorem inner_join_symbol :
    ∀ (esg : List EsgRow) (rets : List RetRow) (s : String),
      (∃ m ∈ merge_on_symbol esg rets, m.symbol = s) ↔
        ((∃ e ∈ esg, e.symbol = s) ∧ (∃ r ∈ rets, r.symbol = s)) := by
  intro esg rets s
  constructor
  · rintro ⟨m, hm, hs⟩
    rw [merge_on_symbol] at hm
    rcases List.mem_flatMap.mp hm with ⟨e, he, hmm⟩
    rcases List.mem_map.mp hmm with ⟨r, hrf, rfl⟩
    rcases List.mem_filter.mp hrf with ⟨hr, hrs⟩
    have hes : e.symbol = s := by simpa using hs
    have hre : r.symbol = e.symbol := by simpa using hrs
    exact ⟨⟨e, he, hes⟩, ⟨r, hr, hre.trans hes⟩⟩
  · rintro ⟨⟨e, he, hes⟩, ⟨r, hr, hrs⟩⟩
    refine ⟨⟨e.symbol, r.startPrice, r.endPrice, r.annualReturn, FVal.fsub r.endPrice r.startPrice, e.totalEsg⟩, ?_, hes⟩
    rw [merge_on_symbol]
    apply List.mem_flatMap.mpr
    refine ⟨e, he, List.mem_map.mpr ⟨r, List.mem_filter.mpr ⟨hr, ?_⟩, rfl⟩⟩
    simp [hes, hrs]

theorem run_zero_start (e : ℚ) :
    run_pipeline esg_table_test (price_table_zero_start e) ["TEST"]
        "2023-01-03" "2024-08-30"
      = some [⟨"TEST", FVal.fin 0, FVal.fin e, annual_return (FVal.fin 0) (FVal.fin e), FVal.fsub (FVal.fin e) (FVal.fin 0), FVal.fin 30⟩] := rfl

theorem annual_return_zero_pos {e : ℚ} (h : 0 < e) :
    annual_return (FVal.fin 0) (FVal.fin e) = FVal.inf := by
  simp [annual_return, FVal.fdiv, FVal.fsub, FVal.fadd, FVal.fneg, h]

theorem annual_return_zero_neg {e : ℚ} (h : e < 0) :
    annual_return (FVal.fin 0) (FVal.fin e) = FVal.ninf := by
  have h1 : ¬ (0 : ℚ) < e := not_lt.mpr h.le
  simp [annual_return, FVal.fdiv, FVal.fsub, FVal.fadd, FVal.fneg, h, h1]

theorem annual_return_zero_zero :
    annual_return (FVal.fin 0) (FVal.fin 0) = FVal.nan := by
  simp [annual_return, FVal.fdiv, FVal.fsub, FVal.fadd, FVal.fneg]

/-- C6 counterexample: with a start price of exactly `0` and end price `10`,
the pipeline's merged/cleaned `AnnualReturn` is `+inf` — a non-missing
value — not the missing marker the claim requires: the unguarded division
produces an infinity that `pd.to_numeric` does not coerce to NaN. -/
theorem zero_start_price_counterexample :
    run_pipeline esg_table_test (price_table_zero_start 10) ["TEST"]
        "2023-01-03" "2024-08-30"
      = some [⟨"TEST", FVal.fin 0, FVal.fin 10, FVal.inf, FVal.fin 10, FVal.fin 30⟩]
    ∧ FVal.inf ≠ FVal.nan := by
  refine ⟨?_, by simp⟩
  rw [run_zero_start 10, annual_return_zero_pos (by norm_num : (0 : ℚ) < 10),
    FVal.fsub_fin_fin]
  norm_num

/-- C6 (amended): for a start price of exactly zero the pipeline does not
raise, but the cleaned `AnnualReturn` is missing only when the end price is
also zero (`0/0` is NaN); for any nonzero end price it is a signed
infinity — a non-missing invalid value that survives the numeric coercion
and propagates into the statistics. -/
theorem zero_start_price_behavior :
    (∀ e : ℚ, e ≠ 0 →
      ∃ row : CleanRow,
        run_pipeline esg_table_test (price_table_zero_start e) ["TEST"]
            "2023-01-03" "2024-08-30" = some [row]
        ∧ row.annualReturn ≠ FVal.nan
        ∧ (row.annualReturn = FVal.inf ∨ row.annualReturn = FVal.ninf))
    ∧ (∃ row : CleanRow,
        run_pipeline esg_table_test (price_table_zero_start 0) ["TEST"]
            "2023-01-03" "2024-08-30" = some [row]
        ∧ row.annualReturn = FVal.nan) := by
  constructor
  · intro e he
    refine ⟨_, run_zero_start e, ?_, ?_⟩
    · show annual_return (FVal.fin 0) (FVal.fin e) ≠ FVal.nan
      rcases he.lt_or_lt with hlt | hgt
      · rw [annual_return_zero_neg hlt]; simp
      · rw [annual_return_zero_pos hgt]; simp
    · show annual_return (FVal.fin 0) (FVal.fin e) = FVal.inf
        ∨ annual_return (FVal.fin 0) (FVal.fin e) = FVal.ninf
      rcases he.lt_or_lt with hlt | hgt
      · exact Or.inr (annual_return_zero_neg hlt)
      · exact Or.inl (annual_return_zero_pos hgt)
  · exact ⟨_, run_zero_start 0, annual_return_zero_zero⟩

/-- Witness for C6 (amended) at end price `10`. -/
theorem zero_start_price_behavior_witness :
    (10 : ℚ) ≠ 0
    ∧ ∃ row : CleanRow,
        run_pipeline esg_table_test (price_table_zero_start 10) ["TEST"]
            "2023-01-03" "2024-08-30" = some [row]
        ∧ row.annualReturn ≠ FVal.nan
        ∧ (row.annualReturn = FVal.inf ∨ row.annualReturn = FVal.ninf) :=
  ⟨by norm_num, zero_start_price_behavior.1 10 (by norm_num)⟩

/-- C7: the Analyzer prints the reject-null verdict exactly when the
p-value is at most the fixed constant `alpha = 0.05`, and the
fail-to-reject verdict otherwise. -/
theorem significance_threshold :
    ∀ q : ℚ,
      (verdict (FVal.fin q) = reject_msg ↔ q ≤ alpha)
      ∧ (verdict (FVal.fin q) = fail_msg ↔ ¬ q ≤ alpha)
      ∧ alpha = 1 / 20 := by
  intro q
  refine ⟨?_, ?_, rfl⟩ <;> by_cases h : q ≤ alpha <;>
    simp [verdict, FVal.fle, h, reject_msg, fail_msg]

/-- C8: `SummaryStats.count` is the number of non-missing values of the
target column, never exceeds the row count, and every statistic of
`describe_return` is computed from the dropna subset alone (recomputing on
the already-filtered subset changes nothing). -/
theorem summary_count_non_missing :
    ∀ (col : List FVal) (label : String),
      (describe_return col label).count = (col.filter (fun v => !v.isNan)).length
      ∧ (describe_return col label).count ≤ col.length
      ∧ describe_return (dropna col) label = describe_return col label := by
  intro col label
  have hidem : dropna (dropna col) = dropna col := by
    simp [dropna, List.filter_filter]
  refine ⟨rfl, ?_, ?_⟩
  · exact List.length_filter_le _ _
  · simp [describe_return, hidem]

/-- C9: `describe_return` uses the sample-variance convention (`N - 1`
denominator: the variance is `n/(n-1)` times the population variance) and
reports excess kurtosis (`m4/m2^2 - 3`, so a raw-convention value minus 3),
on every finite data list of length at least 2. -/
theorem sample_variance_excess_kurtosis :
    ∀ qs : List ℚ, 2 ≤ qs.length →
      (fvar (qs.map FVal.fin) =
        FVal.fin (((qs.length : ℚ) / ((qs.length : ℚ) - 1)) * pop_variance qs))
      ∧ (pop_moment qs 2 ≠ 0 →
          fkurtosis (qs.map FVal.fin) = FVal.fin (raw_kurtosis qs - 3)) := by
  intro qs h2
  have h : qs ≠ [] := by
    intro e
    subst e
    simp at h2
  have hn : ((qs.length : ℚ)) ≠ 0 := by
    have hl : qs.length ≠ 0 := by simpa [List.length_eq_zero] using h
    exact_mod_cast hl
  have hd : ((qs.length : ℚ) - 1) ≠ 0 := by
    have hq : (2 : ℚ) ≤ (qs.length : ℚ) := by exact_mod_cast h2
    linarith
  constructor
  · rw [fvar_map_fin h2]
    congr 1
    rw [pop_variance, pop_moment]
    field_simp
    ring
  · intro hm2
    rw [fkurtosis, fmoment_map_fin h 4, fmoment_map_fin h 2, FVal.fpow_fin,
      FVal.fdiv_fin_fin _ (pow_ne_zero 2 hm2), FVal.fsub_fin_fin, raw_kurtosis]

/-- Witness for C9 on the list `[0, 2, 0, 2]`. -/
theorem sample_variance_excess_kurtosis_witness :
    2 ≤ ([0, 2, 0, 2] : List ℚ).length
    ∧ pop_moment ([0, 2, 0, 2] : List ℚ) 2 ≠ 0
    ∧ fvar (([0, 2, 0, 2] : List ℚ).map FVal.fin) =
        FVal.fin (((([0, 2, 0, 2] : List ℚ).length : ℚ) /
          ((([0, 2, 0, 2] : List ℚ).length : ℚ) - 1)) * pop_variance [0, 2, 0, 2])
    ∧ fkurtosis (([0, 2, 0, 2] : List ℚ).map FVal.fin) =
        FVal.fin (raw_kurtosis [0, 2, 0, 2] - 3) :=
  ⟨by norm_num, by norm_num [pop_moment, qmean],
    (sample_variance_excess_kurtosis [0, 2, 0, 2] (by norm_num)).1,
    (sample_variance_excess_kurtosis [0, 2, 0, 2] (by norm_num)).2
      (by norm_num [pop_moment, qmean])⟩

/-- C10: the numeric-coercion step is frame-correct on the untouched
columns — `Symbol`, `StartPrice` and `EndPrice` of every cleaned row are
identical to their values immediately after the join and projection. -/
theorem clean_frame_effect :
    ∀ m : MergedRow,
      (clean_row m).symbol = m.symbol
      ∧ (clean_row m).startPrice = m.startPrice
      ∧ (clean_row m).endPrice = m.endPrice :=
  fun _ => ⟨rfl, rfl, rfl⟩

/-- C2 (amended): the Analyzer passes the full `totalEsg` and
`AnnualReturn` columns to the Pearson test without excluding pairs with a
missing component; under scipy's default NaN propagation, any missing
component makes the computed correlation statistic (and hence the p-value)
NaN — the missing pair is propagated, not excluded. -/
theorem correlation_missing_pair_propagates :
    ∀ rows : List CleanRow,
      (∃ m ∈ rows, m.totalEsg = FVal.nan ∨ m.annualReturn = FVal.nan) →
      pearson_r_sq (pearson_inputs rows).1 (pearson_inputs rows).2 = FVal.nan := by
  rintro rows ⟨m, hm, hcase⟩
  have hne : rows ≠ [] := by
    intro e
    subst e
    cases hm
  have hy : (pearson_inputs rows).2 ≠ [] := by simp [pearson_inputs, hne]
  have hx : (pearson_inputs rows).1 ≠ [] := by simp [pearson_inputs, hne]
  rcases hcase with h | h
  · refine pearson_r_sq_nan_left ?_ hy
    simp only [pearson_inputs]
    exact List.mem_map.mpr ⟨m, hm, h⟩
  · refine pearson_r_sq_nan_right hx ?_
    simp only [pearson_inputs]
    exact List.mem_map.mpr ⟨m, hm, h⟩

/-- Witness for C2 (amended) on the concrete table with one missing ESG
value. -/
theorem correlation_missing_pair_propagates_witness :
    (∃ m ∈ corr_rows_with_missing,
      m.totalEsg = FVal.nan ∨ m.annualReturn = FVal.nan)
    ∧ pearson_r_sq (pearson_inputs corr_rows_with_missing).1
        (pearson_inputs corr_rows_with_missing).2 = FVal.nan :=
  ⟨by simp [corr_rows_with_missing],
    correlation_missing_pair_propagates corr_rows_with_missing
      (by simp [corr_rows_with_missing])⟩

/-- C2 counterexample: on a concrete merged table with three complete
pairs and one pair whose `totalEsg` is missing, the statistic the code
computes over the unfiltered columns is NaN, while the statistic over the
spec's filtered pairs is the finite value `1/4`: the missing pair does
contribute to (indeed destroys) the computed r and p-value, refuting the
claimed pair-exclusion behavior. -/
theorem correlation_pair_exclusion_counterexample :
    pearson_r_sq (pearson_inputs corr_rows_with_missing).1
      (pearson_inputs corr_rows_with_missing).2 = FVal.nan
    ∧ spec_pearson_r_sq corr_rows_with_missing = FVal.fin (1 / 4)
    ∧ pearson_r_sq (pearson_inputs corr_rows_with_missing).1
        (pearson_inputs corr_rows_with_missing).2
      ≠ spec_pearson_r_sq corr_rows_with_missing := by
  have h1 : pearson_r_sq (pearson_inputs corr_rows_with_missing).1
      (pearson_inputs corr_rows_with_missing).2 = FVal.nan := by
    refine pearson_r_sq_nan_left ?_ (by simp [pearson_inputs, corr_rows_with_missing])
    simp [pearson_inputs, corr_rows_with_missing]
  have h2 : spec_pearson_r_sq corr_rows_with_missing = FVal.fin (1 / 4) := by
    have hp : spec_pairs corr_rows_with_missing =
        [(FVal.fin 10, FVal.fin 1), (FVal.fin 20, FVal.fin 3), (FVal.fin 30, FVal.fin 2)] := by
      simp [spec_pairs, corr_rows_with_missing, FVal.isNan]
    rw [spec_pearson_r_sq, hp]
    norm_num [pearson_r_sq, centered_sum, fmean, FVal.fsum, FVal.fdiv, FVal.fsub,
      FVal.fadd, FVal.fneg, FVal.fmul, List.zipWith]
  refine ⟨h1, h2, ?_⟩
  rw [h1, h2]
  simp
